import Mathlib

/-!
Shallow embedding of the comparable-sales aggregation pipeline
(`scripts/orchestrator.py` and `scripts/enhanced_comp_scraper.py`).

Records are Python dicts with a fixed vocabulary of optional fields; we model
them as a structure of `Option`-valued fields.  Python floats are modelled as
exact rationals.  Python exceptions are modelled with `Except String`.
Python `list.sort` / `sorted` are stable sorts; a stable sort with a given
total preorder is extensionally unique, so we model them with
`List.insertionSort` (which is stable) over the corresponding
"comes-no-later-than" relation.
-/

namespace CompScraper

/-- A candidate comparable-sale record: the field vocabulary of the records
produced by the adapters (see the data model: address, saleDate, salePrice,
buildingSizeSqFt, lotSizeSqFt, yearBuilt, propertyType, useCode, parcelId,
briefDescription, source, confidenceScore).  An absent dict key is `none`. -/
structure Comp where
  address : Option String := none
  saleDate : Option String := none
  salePrice : Option ℚ := none
  buildingSizeSqFt : Option ℚ := none
  lotSizeSqFt : Option ℚ := none
  yearBuilt : Option ℤ := none
  propertyType : Option String := none
  useCode : Option String := none
  parcelId : Option String := none
  briefDescription : Option String := none
  source : Option String := none
  confidenceScore : Option ℚ := none
  deriving Repr, DecidableEq

/-- The subject-property input document (`input_data`).  Each field models a
JSON key that may be absent (`none`). -/
structure InputData where
  subjectPropertyType : Option String := none
  subjectCity : Option String := none
  subjectCounty : Option String := none
  subjectState : Option String := none
  subjectAddress : Option String := none
  subjectSizeSqFt : Option ℚ := none
  subjectYearBuilt : Option ℤ := none
  numberOfComps : Option ℕ := none
  deriving Repr, DecidableEq

/-! ### Kernel-computable rational arithmetic

The `Rat` arithmetic instances of the library are `@[irreducible]`, which
blocks `decide`-style evaluation of the pipeline on concrete inputs.  The
embedding therefore uses the following wrappers, built from the reducible
smart constructor `Rat.divInt`; each is proved extensionally equal to the
corresponding library operation below (`pyAdd_eq` and friends), so the
modelling is unchanged — Python float arithmetic is modelled by exact
rational arithmetic throughout. -/

/-- The rational literal `n / d` (used for Python float literals, e.g.
`ratLit 3 10` for `0.3`). -/
def ratLit (n : ℤ) (d : ℕ) : ℚ := mkRat n d

/-- Rational addition (kernel-computable form). -/
def pyAdd (a b : ℚ) : ℚ :=
  Rat.divInt (a.num * (b.den : ℤ) + b.num * (a.den : ℤ)) ((a.den : ℤ) * (b.den : ℤ))

/-- Rational subtraction (kernel-computable form). -/
def pySub (a b : ℚ) : ℚ :=
  Rat.divInt (a.num * (b.den : ℤ) - b.num * (a.den : ℤ)) ((a.den : ℤ) * (b.den : ℤ))

/-- Rational multiplication (kernel-computable form). -/
def pyMul (a b : ℚ) : ℚ :=
  Rat.divInt (a.num * b.num) ((a.den : ℤ) * (b.den : ℤ))

/-- Rational division (kernel-computable form; division by zero gives zero,
matching the library convention — all uses in the embedding are guarded). -/
def pyDiv (a b : ℚ) : ℚ :=
  Rat.divInt (a.num * (b.den : ℤ)) ((a.den : ℤ) * b.num)

/-- Absolute value of a rational (Python `abs`). -/
def pyAbs (q : ℚ) : ℚ := if q < 0 then -q else q

/-- Floor of a rational (kernel-computable form). -/
def ratFloorPy (q : ℚ) : ℤ := Int.fdiv q.num q.den

/-! ### Address normalizer (`_normalize_address_for_dedup`) -/

/-- The character class of the first regex substitution in
`_normalize_address_for_dedup` (dot, comma, and a range): the range written
there runs from the number sign (ASCII 35) to the slash (ASCII 47), so the
class is dot and comma plus all characters with codes 35 through 47. -/
def pySeparatorChar (c : Char) : Bool :=
  35 ≤ c.toNat && c.toNat ≤ 47

/-- The street-suffix vocabulary removed as whole words. -/
def streetSuffixWords : List String :=
  ["street", "st", "avenue", "ave", "road", "rd", "boulevard", "blvd",
   "drive", "dr", "lane", "ln", "way", "place", "pl", "court", "ct",
   "parkway", "pkwy"]

/-- Python regex word character (`\w`, ASCII part): letters, digits, underscore. -/
def isWordChar (c : Char) : Bool :=
  c.isAlpha || c.isDigit || c = '_'

/-- Python regex whitespace (`\s`, ASCII part): space and control chars 9..13. -/
def isPyWhitespace (c : Char) : Bool :=
  c = ' ' || (9 ≤ c.toNat && c.toNat ≤ 13)

/-- Emit an accumulated maximal word-character run, dropping it when it is one
of the street-suffix words.  (A `\b word \b` regex match of an all-word-char
alternative is exactly a maximal word-character run equal to that word.) -/
def flushWord (w : List Char) : List Char :=
  if streetSuffixWords.contains (String.mk w) then [] else w

/-- Remove the street-suffix vocabulary as whole words
(`re.sub(r'\b(street|st|...)\b', '', address)`); `w` is the reversed
accumulator of the current word-character run. -/
def removeSuffixWordsAux : List Char → List Char → List Char
  | w, [] => flushWord w.reverse
  | w, c :: cs =>
    if isWordChar c then removeSuffixWordsAux (c :: w) cs
    else flushWord w.reverse ++ c :: removeSuffixWordsAux [] cs

/-- `_normalize_address_for_dedup(address)`: empty for falsy input, otherwise
lowercase, replace the separator character class with spaces, remove
street-suffix words, then delete all whitespace. -/
def normalizeAddressForDedup (address : Option String) : String :=
  match address with
  | none => ""
  | some a =>
    if a = "" then ""
    else
      let lowered := a.toList.map Char.toLower
      let separated := lowered.map fun c => if pySeparatorChar c then ' ' else c
      let unsuffixed := removeSuffixWordsAux [] separated
      String.mk (unsuffixed.filter fun c => !(isPyWhitespace c))

/-- `_is_same_address(addr1, addr2)`: false when either is falsy, otherwise
equality of normalized forms. -/
def isSameAddress (a1 a2 : String) : Bool :=
  if a1 = "" ∨ a2 = "" then false
  else normalizeAddressForDedup (some a1) == normalizeAddressForDedup (some a2)

/-- Modelled from the spec claim wording (for comparison with the source):
the normalizer as described by the claim, replacing exactly the five
characters `.` `,` `#` `-` `/` (and no others) with spaces. -/
def specFiveCharsSeparator (c : Char) : Bool :=
  c = '.' || c = ',' || c = '#' || c = '-' || c = '/'

/-- The claim's version of the normalizer: identical to the source except
that only the five listed characters are treated as separators. -/
def specNormalizeFiveChars (address : Option String) : String :=
  match address with
  | none => ""
  | some a =>
    if a = "" then ""
    else
      let lowered := a.toList.map Char.toLower
      let separated := lowered.map fun c => if specFiveCharsSeparator c then ' ' else c
      let unsuffixed := removeSuffixWordsAux [] separated
      String.mk (unsuffixed.filter fun c => !(isPyWhitespace c))

/-- The amended description of the separator set: the thirteen ASCII
characters with codes 35 through 47 (number sign through slash). -/
def specAmendedSeparator (c : Char) : Bool :=
  ((List.range 13).map fun n => n + 35).contains c.toNat

/-- The amended normalizer description: as the claim, but with the separator
set corrected to the ASCII range 35..47. -/
def specNormalizeAmended (address : Option String) : String :=
  match address with
  | none => ""
  | some a =>
    if a = "" then ""
    else
      let lowered := a.toList.map Char.toLower
      let separated := lowered.map fun c => if specAmendedSeparator c then ' ' else c
      let unsuffixed := removeSuffixWordsAux [] separated
      String.mk (unsuffixed.filter fun c => !(isPyWhitespace c))

/-! ### Dedup/merge engine (`_deduplicate_and_enhance`) -/

/-- Number of non-null values of a record
(`sum(1 for v in x.values() if v is not None)`). -/
def countNonNull (c : Comp) : ℕ :=
  (if c.address.isSome then 1 else 0) + (if c.saleDate.isSome then 1 else 0) +
  (if c.salePrice.isSome then 1 else 0) + (if c.buildingSizeSqFt.isSome then 1 else 0) +
  (if c.lotSizeSqFt.isSome then 1 else 0) + (if c.yearBuilt.isSome then 1 else 0) +
  (if c.propertyType.isSome then 1 else 0) + (if c.useCode.isSome then 1 else 0) +
  (if c.parcelId.isSome then 1 else 0) + (if c.briefDescription.isSome then 1 else 0) +
  (if c.source.isSome then 1 else 0) + (if c.confidenceScore.isSome then 1 else 0)

/-- The group pre-sort key: `(x.get('confidenceScore', 0), count of non-null values)`. -/
def sortKeyPy (c : Comp) : ℚ × ℕ :=
  (c.confidenceScore.getD 0, countNonNull c)

/-- Lexicographic greater-or-equal on the group sort key, i.e. "comes no
later than" for a Python stable sort with `reverse=True`. -/
def tupleGE (x y : ℚ × ℕ) : Prop :=
  y.1 < x.1 ∨ (y.1 = x.1 ∧ y.2 ≤ x.2)

instance : DecidableRel tupleGE := fun x y =>
  inferInstanceAs (Decidable (y.1 < x.1 ∨ (y.1 = x.1 ∧ y.2 ≤ x.2)))

/-- Record `a` comes no later than record `b` in the descending group order. -/
def groupGE (a b : Comp) : Prop := tupleGE (sortKeyPy a) (sortKeyPy b)

instance : DecidableRel groupGE := fun a b =>
  inferInstanceAs (Decidable (tupleGE (sortKeyPy a) (sortKeyPy b)))

instance : IsTotal Comp groupGE :=
  ⟨by
    intro a b
    rcases lt_trichotomy (sortKeyPy a).1 (sortKeyPy b).1 with h | h | h
    · exact Or.inr (Or.inl h)
    · rcases le_total (sortKeyPy a).2 (sortKeyPy b).2 with h2 | h2
      · exact Or.inr (Or.inr ⟨h, h2⟩)
      · exact Or.inl (Or.inr ⟨h.symm, h2⟩)
    · exact Or.inl (Or.inl h)⟩

instance : IsTrans Comp groupGE :=
  ⟨by
    intro a b c hab hbc
    rcases hab with h1 | ⟨e1, l1⟩ <;> rcases hbc with h2 | ⟨e2, l2⟩
    · exact Or.inl (h2.trans h1)
    · exact Or.inl (e2.trans_lt h1)
    · exact Or.inl (h2.trans_eq e1)
    · exact Or.inr ⟨e2.trans e1, l2.trans l1⟩⟩

/-- `comp_group.sort(key=..., reverse=True)`: stable descending sort of a
merge group; modelled by the (stable) insertion sort over `groupGE`. -/
def sortGroupDesc (g : List Comp) : List Comp :=
  List.insertionSort groupGE g

/-- Append a record to its group in the insertion-ordered association list of
groups (Python dict keyed by normalized address). -/
def addToGroups (gs : List (String × List Comp)) (k : String) (c : Comp) :
    List (String × List Comp) :=
  match gs with
  | [] => [(k, [c])]
  | (k', l) :: rest =>
    if k' = k then (k', l ++ [c]) :: rest else (k', l) :: addToGroups rest k c

/-- Build `address_groups`: group records by normalized address, dropping
records whose normalized address is empty; groups keep dict insertion order. -/
def groupByNormAddress (comps : List Comp) : List (String × List Comp) :=
  comps.foldl
    (fun gs c =>
      let k := normalizeAddressForDedup c.address
      if k = "" then gs else addToGroups gs k c)
    []

/-- Characters before the first occurrence of the separator sequence " - "
(the whole list when the separator does not occur). -/
def takeUntilSep : List Char → List Char
  | [] => []
  | c :: cs =>
    if List.isPrefixOf [' ', '-', ' '] (c :: cs) then []
    else c :: takeUntilSep cs

/-- The primary source label: the part of a source string before the first
" - " separator (`source.split(' - ')[0]`). -/
def primaryLabel (s : String) : String :=
  String.mk (takeUntilSep s.toList)

/-- Primary source label of a record (`comp.get('source', 'Unknown').split(' - ')[0]`). -/
def primarySource (c : Comp) : String :=
  primaryLabel (c.source.getD "Unknown")

/-- Add a string to a set represented as a duplicate-free list. -/
def insertUnique (l : List String) (s : String) : List String :=
  if l.contains s then l else l ++ [s]

/-- Lexicographic less-or-equal on character lists by code point. -/
def lexListLE : List Char → List Char → Bool
  | [], _ => true
  | _ :: _, [] => false
  | a :: as, b :: bs =>
    if a.toNat < b.toNat then true
    else if b.toNat < a.toNat then false
    else lexListLE as bs

/-- String "comes no later than" (lexicographic by code points, as in Python). -/
def strLE (a b : String) : Prop := lexListLE a.toList b.toList = true

instance : DecidableRel strLE := fun a b =>
  inferInstanceAs (Decidable (lexListLE a.toList b.toList = true))

/-- `"Multiple Sources - " + ", ".join(sorted(list(all_sources)))`. -/
def multiSourceLabel (sources : List String) : String :=
  "Multiple Sources - " ++ String.intercalate ", " (List.insertionSort strLE sources)

/-- Fill a single field of the base record from another record: keep the base
value when non-null, else take the other value. -/
def fillField {α : Type} (b o : Option α) : Option α :=
  match b with
  | some v => some v
  | none => o

/-- One merge step: for every field other than `source` and `confidenceScore`,
fill the base record's null fields from the other record. -/
def fillFromOther (base other : Comp) : Comp :=
  { address := fillField base.address other.address
    saleDate := fillField base.saleDate other.saleDate
    salePrice := fillField base.salePrice other.salePrice
    buildingSizeSqFt := fillField base.buildingSizeSqFt other.buildingSizeSqFt
    lotSizeSqFt := fillField base.lotSizeSqFt other.lotSizeSqFt
    yearBuilt := fillField base.yearBuilt other.yearBuilt
    propertyType := fillField base.propertyType other.propertyType
    useCode := fillField base.useCode other.useCode
    parcelId := fillField base.parcelId other.parcelId
    briefDescription := fillField base.briefDescription other.briefDescription
    source := base.source
    confidenceScore := base.confidenceScore }

/-- The set of distinct primary source labels contributing to a group,
seeded with the base record's label. -/
def groupSources (seed : Comp) (rest : List Comp) : List String :=
  rest.foldl (fun acc o => insertUnique acc (primarySource o)) [primarySource seed]

/-- Merge one group: seed with the top-ordered record, fill null fields from
the rest, combine the source label, and boost confidence for multiple
distinct sources (capped at 0.95). -/
def mergeGroup (seed : Comp) (rest : List Comp) : Comp :=
  let merged := rest.foldl fillFromOther seed
  let sources := groupSources seed rest
  if 1 < sources.length then
    { merged with
      source := some (multiSourceLabel sources)
      confidenceScore :=
        some (min (pyAdd (merged.confidenceScore.getD (ratLit 1 2))
                    (pyMul (ratLit 1 10) (pySub ((sources.length : ℚ)) 1)))
               (ratLit 19 20)) }
  else
    { merged with source := some (merged.source.getD "Unknown") }

/-- `_deduplicate_and_enhance(comps)`: group by normalized address, order each
group descending by (confidence, completeness), and merge each group. -/
def deduplicateAndEnhance (comps : List Comp) : List Comp :=
  (groupByNormAddress comps).filterMap fun g =>
    match sortGroupDesc g.2 with
    | [] => none
    | seed :: rest => some (mergeGroup seed rest)

/-! ### Sale-date parsing (`datetime.strptime(s, '%Y-%m-%d')`) -/

/-- All characters are ASCII digits. -/
def allDigits (l : List Char) : Bool := l.all Char.isDigit

/-- Numeric value of a digit string. -/
def digitsToNat (l : List Char) : ℕ :=
  l.foldl (fun a c => 10 * a + (c.toNat - 48)) 0

/-- A month field accepted by strptime: one digit 1-9, or two digits with
value 1..12 (a leading zero allowed). -/
def validMonthField (p : String) : Option ℕ :=
  let l := p.toList
  if allDigits l && (l.length = 1 || l.length = 2) then
    let m := digitsToNat l
    if 1 ≤ m && m ≤ 12 then some m else none
  else none

/-- A day field accepted by strptime: one digit 1-9, or two digits with
value 1..31 (a leading zero allowed). -/
def validDayField (p : String) : Option ℕ :=
  let l := p.toList
  if allDigits l && (l.length = 1 || l.length = 2) then
    let d := digitsToNat l
    if 1 ≤ d && d ≤ 31 then some d else none
  else none

/-- Number of days of a month in the proleptic Gregorian calendar. -/
def daysInMonth (y m : ℕ) : ℕ :=
  if m = 2 then
    if y % 4 = 0 && (y % 100 ≠ 0 || y % 400 = 0) then 29 else 28
  else if m = 4 || m = 6 || m = 9 || m = 11 then 30
  else 31

/-- Split a character list on a separator character (Python `str.split(sep)`
for a single-character separator). -/
def splitChar (sep : Char) (l : List Char) : List (List Char) :=
  l.foldr
    (fun c acc =>
      if c = sep then [] :: acc
      else
        match acc with
        | [] => [[c]]
        | h :: t => (c :: h) :: t)
    [[]]

/-- Parse a sale date in the `%Y-%m-%d` format: a 4-digit year (at least 1),
a month and a day field, with the day valid for the month; `none` models the
`ValueError` of `datetime.strptime`. -/
def parseSaleDate (s : String) : Option (ℕ × ℕ × ℕ) :=
  match (splitChar '-' s.toList).map String.mk with
  | [ys, ms, ds] =>
    let yl := ys.toList
    if yl.length = 4 && allDigits yl then
      let y := digitsToNat yl
      if 1 ≤ y then
        match validMonthField ms, validDayField ds with
        | some m, some d => if d ≤ daysInMonth y m then some (y, m, d) else none
        | _, _ => none
      else none
    else none
  | _ => none

/-! ### Recency filter (`_filter_recent_sales`) -/

/-- The per-record action of `_filter_recent_sales`, with the current year
taken as a parameter: `some` keeps the (possibly penalized) record, `none`
drops it. -/
def filterRecentStep (currentYear yearsBack : ℤ) (comp : Comp) : Option Comp :=
  match comp.saleDate with
  | some s =>
    if s = "" then
      some { comp with
        confidenceScore := some (min (comp.confidenceScore.getD (ratLit 1 2)) (ratLit 3 10)) }
    else
      match parseSaleDate s with
      | some ymd =>
        if currentYear - yearsBack ≤ (ymd.1 : ℤ) then some comp else none
      | none =>
        some { comp with
          confidenceScore := some (min (comp.confidenceScore.getD (ratLit 1 2)) (ratLit 2 5)) }
  | none =>
    some { comp with
      confidenceScore := some (min (comp.confidenceScore.getD (ratLit 1 2)) (ratLit 3 10)) }

/-- `_filter_recent_sales(comps, years_back)` (the call site uses the default
`years_back=3`). -/
def filterRecentSales (comps : List Comp) (currentYear yearsBack : ℤ) : List Comp :=
  comps.filterMap (filterRecentStep currentYear yearsBack)

/-! ### Relevance ranker (`_sort_by_relevance`) -/

/-- Python `int()` truncation of a rational toward zero. -/
def truncRat (q : ℚ) : ℤ :=
  if q < 0 then -(ratFloorPy (-q)) else ratFloorPy q

/-- `subject_size`: the subject building size converted with `int(...)`
(numeric inputs; absent otherwise). -/
def subjectSizeOf (inp : InputData) : Option ℤ :=
  inp.subjectSizeSqFt.map truncRat

/-- `subject_year`: the subject year built (integer inputs; absent otherwise). -/
def subjectYearOf (inp : InputData) : Option ℤ :=
  inp.subjectYearBuilt

/-- The message of the `NameError` raised inside `relevance_score`: the local
name `years_back` is never defined in `_sort_by_relevance`, and `NameError`
is not caught by its `except (ValueError, TypeError)` clause. -/
def yearsBackNameError : String := "NameError: name years_back is not defined"

/-- The size-similarity component (`0.15 * max(0, 1 - 2*|ss - cs|/ss)`),
present when the subject size is truthy and the comp size is positive. -/
def sizeComponent (inp : InputData) (comp : Comp) : ℚ :=
  match subjectSizeOf inp, comp.buildingSizeSqFt with
  | some ss, some cs =>
    if ss ≠ 0 ∧ 0 < cs then
      pyMul (max 0 (pySub 1 (pyMul (pyDiv (pyAbs (pySub (ss : ℚ) cs)) (ss : ℚ)) 2)))
        (ratLit 3 20)
    else 0
  | _, _ => 0

/-- The age-similarity component (`0.15 * max(0, 1 - |sy - cy|/50)`), present
when the subject year is truthy and the comp year is greater than 1800. -/
def ageComponent (inp : InputData) (comp : Comp) : ℚ :=
  match subjectYearOf inp, comp.yearBuilt with
  | some sy, some cy =>
    if sy ≠ 0 ∧ 1800 < cy then
      pyMul (max 0 (pySub 1 (pyDiv ((|sy - cy| : ℤ) : ℚ) 50))) (ratLit 3 20)
    else 0
  | _, _ => 0

/-- `relevance_score(comp)`.  The recency branch runs only for a truthy
`saleDate`; a parse failure is caught (`except (ValueError, TypeError)`) and
skipped, but a successful parse reaches the unbound local `years_back` and
raises `NameError`, which escapes the function. -/
def relevanceScore (inp : InputData) (comp : Comp) : Except String ℚ :=
  let base := pyMul (comp.confidenceScore.getD 0) (ratLit 2 5)
  let withRest := fun (b : ℚ) =>
    pyAdd (pyAdd b (sizeComponent inp comp)) (ageComponent inp comp)
  match comp.saleDate with
  | some s =>
    if s = "" then Except.ok (withRest base)
    else
      match parseSaleDate s with
      | some _ => Except.error yearsBackNameError
      | none => Except.ok (withRest base)
  | none => Except.ok (withRest base)

/-- Key a record with its relevance score, propagating the score exception. -/
def keyedScore (inp : InputData) (comp : Comp) : Except String (ℚ × Comp) :=
  match relevanceScore inp comp with
  | Except.ok q => Except.ok (q, comp)
  | Except.error e => Except.error e

/-- "Comes no later than" for the descending score order of
`sorted(..., reverse=True)`. -/
def pairGE (p q : ℚ × Comp) : Prop := q.1 ≤ p.1

instance : DecidableRel pairGE := fun p q => inferInstanceAs (Decidable (q.1 ≤ p.1))

instance : IsTotal (ℚ × Comp) pairGE := ⟨fun p q => le_total q.1 p.1⟩

instance : IsTrans (ℚ × Comp) pairGE := ⟨fun _ _ _ h1 h2 => h2.trans h1⟩

/-- Key every record with its relevance score, left to right; the first
record on which the key function raises propagates its exception (as in
`sorted(comps, key=relevance_score, reverse=True)`). -/
def mapKeyedScores (inp : InputData) : List Comp → Except String (List (ℚ × Comp))
  | [] => Except.ok []
  | c :: cs =>
    match keyedScore inp c with
    | Except.error e => Except.error e
    | Except.ok p =>
      match mapKeyedScores inp cs with
      | Except.error e => Except.error e
      | Except.ok ps => Except.ok (p :: ps)

/-- `_sort_by_relevance(comps, input_data)`: compute every key, then
stable-sort descending by score. -/
def sortByRelevance (comps : List Comp) (inp : InputData) : Except String (List Comp) :=
  match mapKeyedScores inp comps with
  | Except.error e => Except.error e
  | Except.ok keyed => Except.ok ((List.insertionSort pairGE keyed).map Prod.snd)

/-- The total relevance score of a record as a plain value (0 for a record on
which `relevance_score` raises); used to state ranking properties. -/
def relevanceScoreD (inp : InputData) (comp : Comp) : ℚ :=
  match relevanceScore inp comp with
  | Except.ok q => q
  | Except.error _ => 0

/-! ### Search summary (`_generate_search_summary`) -/

/-- Sublist containment of character lists at some position. -/
def listContainsSub (l pat : List Char) : Bool :=
  match l with
  | [] => pat.isEmpty
  | _ :: t => List.isPrefixOf pat l || listContainsSub t pat

/-- Substring test (Python `pat in s`). -/
def containsSubstr (s pat : String) : Bool :=
  listContainsSub s.toList pat.toList

/-- Strict lexicographic order on (year, month, day) dates. -/
def dateLT (a b : ℕ × ℕ × ℕ) : Bool :=
  decide (a.1 < b.1 ∨ (a.1 = b.1 ∧
    (a.2.1 < b.2.1 ∨ (a.2.1 = b.2.1 ∧ a.2.2 < b.2.2))))

/-- C-locale month abbreviations for `strftime('%b ...')`. -/
def monthAbbrev (m : ℕ) : String :=
  List.getD ["Jan", "Feb", "Mar", "Apr", "May", "Jun",
             "Jul", "Aug", "Sep", "Oct", "Nov", "Dec"] (m - 1) "?"

/-- `strftime('%b %Y')`. -/
def fmtMonthYear (d : ℕ × ℕ × ℕ) : String :=
  monthAbbrev d.2.1 ++ " " ++ toString d.1

/-- Insert thousands separators into a reversed digit list. -/
def groupRev : List Char → List Char
  | a :: b :: c :: d :: rest => a :: b :: c :: ',' :: groupRev (d :: rest)
  | l => l

/-- Decimal digits of a natural number with thousands separators. -/
def commaGroup (n : ℕ) : String :=
  String.mk ((groupRev (toString n).toList.reverse).reverse)

/-- Round a rational to the nearest integer, ties to even (Python float
formatting with `.0f`). -/
def roundHalfEven (q : ℚ) : ℤ :=
  let f := ratFloorPy q
  let frac := pySub q (f : ℚ)
  if frac < ratLit 1 2 then f
  else if ratLit 1 2 < frac then f + 1
  else if f % 2 = 0 then f else f + 1

/-- Python `f"${x:,.0f}"`. -/
def fmtPrice (q : ℚ) : String :=
  let r := roundHalfEven q
  "$" ++ (if r < 0 then "-" ++ commaGroup r.natAbs else commaGroup r.toNat)

/-- `_generate_search_summary(final_comps, input_data, all_raw_comps,
deduped_comps, recent_comps_list)`. -/
def generateSearchSummary (finalComps : List Comp) (inp : InputData)
    (allRaw deduped recents : List Comp) : String :=
  let p1 := "Comparable sales search for " ++ inp.subjectPropertyType.getD "N/A" ++
    " in " ++ inp.subjectCity.getD "N/A" ++ ", " ++ inp.subjectCounty.getD "N/A" ++ "."
  let p2 := "Initial search yielded " ++ toString allRaw.length ++ " raw entries."
  let p3 := "After deduplication & enhancement: " ++ toString deduped.length ++
    " unique properties."
  let p4 := "Filtered to " ++ toString recents.length ++
    " properties from the last ~3 years."
  if finalComps.isEmpty then
    String.intercalate " "
      [p1, p2, p3, p4, "No suitable comparable sales found matching all criteria."]
  else
    let p5 := "Selected top " ++ toString finalComps.length ++
      " comparables based on relevance."
    let srcs := (allRaw ++ deduped ++ finalComps).foldl
      (fun acc c =>
        let sn0 := c.source.getD "Unknown"
        let sn := if containsSubstr sn0 " - " then primaryLabel sn0 else sn0
        if containsSubstr sn "Multiple Sources" then acc else insertUnique acc sn)
      []
    let p6 :=
      if srcs.isEmpty then
        "No specific data sources were successfully identified in the final comps."
      else
        "Data sources consulted include: " ++
          String.intercalate ", " (List.insertionSort strLE srcs) ++ "."
    let saleDates := finalComps.filterMap fun c =>
      match c.saleDate with
      | some s => if s = "" then none else some s
      | none => none
    let dateSentence : List String :=
      if saleDates.isEmpty then []
      else
        match saleDates.mapM parseSaleDate with
        | none => []
        | some parsed =>
          match parsed with
          | [] => []
          | d :: ds =>
            let earliest := ds.foldl (fun a b => if dateLT b a then b else a) d
            let latest := ds.foldl (fun a b => if dateLT a b then b else a) d
            ["Final selected sales range from " ++ fmtMonthYear earliest ++
              " to " ++ fmtMonthYear latest ++ "."]
    let prices := finalComps.filterMap fun c => c.salePrice
    let priceSentence : List String :=
      match prices with
      | [] => []
      | q :: qs =>
        let mn := qs.foldl (fun a b => if b < a then b else a) q
        let mx := qs.foldl (fun a b => if a < b then b else a) q
        ["Sale prices in final set range from " ++ fmtPrice mn ++ " to " ++
          fmtPrice mx ++ "."]
    String.intercalate " " ([p1, p2, p3, p4, p5, p6] ++ dateSentence ++ priceSentence)

/-! ### Fan-out coordinator (`gather_comparable_sales`) and process boundary -/

/-- The outcome of the four adapter calls (opaque external collaborators):
either a raised exception or a list of candidate records. -/
structure AdapterResults where
  municipal : Except String (List Comp)
  registry : Except String (List Comp)
  massgis : Except String (List Comp)
  serp : Except String (List Comp)

/-- Records contributed by one adapter: an adapter failure (either caught in
its wrapper or surfaced through `asyncio.gather(..., return_exceptions=True)`)
contributes zero records; `None`/empty results also contribute zero. -/
def adapterRecords : Except String (List Comp) → List Comp
  | Except.ok l => l
  | Except.error _ => []

/-- `all_comps`: concatenation of the four adapters' records, in the fixed
task order (MunicipalAssessor, RegistryOfDeeds, MassGIS, SERP). -/
def rawComps (A : AdapterResults) : List Comp :=
  adapterRecords A.municipal ++ adapterRecords A.registry ++
    adapterRecords A.massgis ++ adapterRecords A.serp

/-- `unique_comps`: the deduplicated and enhanced records. -/
def uniqueComps (A : AdapterResults) : List Comp :=
  deduplicateAndEnhance (rawComps A)

/-- `recent_comps` before the subject-exclusion step (the call uses the
default `years_back=3`). -/
def recentComps (A : AdapterResults) (currentYear : ℤ) : List Comp :=
  filterRecentSales (uniqueComps A) currentYear 3

/-- `recent_comps` after removing the subject property itself (applied only
for a truthy subject address). -/
def qualifiedComps (A : AdapterResults) (inp : InputData) (currentYear : ℤ) : List Comp :=
  let subjAddr := inp.subjectAddress.getD ""
  if subjAddr = "" then recentComps A currentYear
  else (recentComps A currentYear).filter fun c =>
    !(isSameAddress (c.address.getD "") subjAddr)

/-- The dictionary returned by `gather_comparable_sales`. -/
structure GatherResult where
  comparableSales : List Comp
  searchSummary : String
  deriving Repr, DecidableEq

instance {ε α : Type} [DecidableEq ε] [DecidableEq α] : DecidableEq (Except ε α) := fun x y =>
  match x, y with
  | Except.ok a, Except.ok b =>
    if h : a = b then isTrue (congrArg Except.ok h)
    else isFalse fun he => h (Except.ok.inj he)
  | Except.error a, Except.error b =>
    if h : a = b then isTrue (congrArg Except.error h)
    else isFalse fun he => h (Except.error.inj he)
  | Except.ok _, Except.error _ => isFalse fun he => Except.noConfusion he
  | Except.error _, Except.ok _ => isFalse fun he => Except.noConfusion he

/-- `gather_comparable_sales(input_data)`: validation of city/county, fan-out,
dedup, recency filter, subject exclusion, ranking, truncation, summary.  An
exception escaping the ranking step propagates (`Except.error`). -/
def gatherComparableSales (A : AdapterResults) (inp : InputData) (currentYear : ℤ) :
    Except String GatherResult :=
  let city := inp.subjectCity.getD ""
  let county := inp.subjectCounty.getD ""
  if city = "" ∨ county = "" then
    Except.ok ⟨[], "Error: City and County are required."⟩
  else
    match sortByRelevance (qualifiedComps A inp currentYear) inp with
    | Except.error e => Except.error e
    | Except.ok srt =>
      let top := srt.take (inp.numberOfComps.getD 5)
      Except.ok ⟨top,
        generateSearchSummary top inp (rawComps A) (uniqueComps A)
          (qualifiedComps A inp currentYear)⟩

/-- The output document written by the entry point. -/
structure OutputDoc where
  comparableSales : List Comp
  searchSummary : String
  error : Bool
  deriving Repr, DecidableEq

/-- The error-shaped output for missing required input fields. -/
def missingFieldsOutput : OutputDoc :=
  ⟨[], "Error: Input data missing required fields (subjectCity, subjectCounty, subjectPropertyType).",
    true⟩

/-- The `main()` entry point of `enhanced_comp_scraper.py` after the input
file is loaded: validate the presence of the three required keys (exit 1 on
failure), run the orchestrator (a raised exception is caught and encoded as
an error-shaped output), and return the written output document together with
the process exit code.  Note that the critical-error branch does not call
`sys.exit`, so the process still exits 0 there. -/
def processMain (A : AdapterResults) (inp : InputData) (currentYear : ℤ) :
    OutputDoc × ℕ :=
  if inp.subjectCity.isSome && inp.subjectCounty.isSome &&
      inp.subjectPropertyType.isSome then
    match gatherComparableSales A inp currentYear with
    | Except.ok r => (⟨r.comparableSales, r.searchSummary, false⟩, 0)
    | Except.error e =>
      (⟨[], "Critical error during comparable sales gathering: " ++ e, true⟩, 0)
  else (missingFieldsOutput, 1)

/-! ### Concrete instances used in counterexamples and witnesses -/

/-- A record whose sale date parses, which sends `relevance_score` into the
unbound `years_back` local. -/
def nameErrComp : Comp :=
  { address := some "9 Oak St", saleDate := some "2024-06-01",
    confidenceScore := some (ratLit 4 5), source := some "MassGIS" }

/-- A minimal valid subject-property input. -/
def basicInput : InputData :=
  { subjectPropertyType := some "Retail", subjectCity := some "Boston",
    subjectCounty := some "Suffolk" }

/-- Adapter outcome where only the municipal adapter returns a (dated) record. -/
def nameErrAdapters : AdapterResults :=
  ⟨Except.ok [nameErrComp], Except.ok [], Except.ok [], Except.ok []⟩

/-- Adapter outcome where all four adapters raise. -/
def allFailAdapters : AdapterResults :=
  ⟨Except.error "boom1", Except.error "boom2", Except.error "boom3", Except.error "boom4"⟩

/-- A single-source record with confidence 1.0 (legal input: within [0, 1]). -/
def fullConfComp : Comp :=
  { address := some "1 Elm", source := some "MassGIS", confidenceScore := some 1 }

/-- Scenario A record: salePrice only, confidence 0.6. -/
def scnARec1 (p : ℚ) (s1 : String) : Comp :=
  { address := some "123 Main St", salePrice := some p, source := some s1,
    confidenceScore := some (ratLit 3 5) }

/-- Scenario A record: yearBuilt only, confidence 0.6. -/
def scnARec2 (y : ℤ) (s2 : String) : Comp :=
  { address := some "123 Main Street", yearBuilt := some y, source := some s2,
    confidenceScore := some (ratLit 3 5) }

/-- Scenario E records: five unique qualifying records (no sale dates, so the
ranking step cannot hit the `years_back` defect), distinguished by size. -/
def scnE1 : Comp :=
  { address := some "1 Elm St", buildingSizeSqFt := some 2000,
    source := some "MassGIS", confidenceScore := some (ratLit 28 100) }

def scnE2 : Comp :=
  { address := some "2 Elm St", buildingSizeSqFt := some 2500,
    source := some "MassGIS", confidenceScore := some (ratLit 22 100) }

def scnE3 : Comp :=
  { address := some "3 Elm St", buildingSizeSqFt := some 3000,
    source := some "SERP", confidenceScore := some (ratLit 17 100) }

def scnE4 : Comp :=
  { address := some "4 Elm St", buildingSizeSqFt := some 4000,
    source := some "SERP", confidenceScore := some (ratLit 11 100) }

def scnE5 : Comp :=
  { address := some "5 Elm St", buildingSizeSqFt := some 6000,
    source := some "MunicipalAssessor", confidenceScore := some (ratLit 6 100) }

/-- Scenario E subject input requesting two comps. -/
def scnEInput : InputData :=
  { subjectPropertyType := some "Office", subjectCity := some "Boston",
    subjectCounty := some "Suffolk", subjectSizeSqFt := some 2000,
    numberOfComps := some 2 }

/-- Scenario E adapter outcome distributing the five records over three sources. -/
def scnEAdapters : AdapterResults :=
  ⟨Except.ok [scnE1, scnE2], Except.ok [], Except.ok [scnE3, scnE4], Except.ok [scnE5]⟩

/-- The output of the Scenario E run. -/
def scnEOutput : GatherResult :=
  ⟨[scnE1, scnE2],
    "Comparable sales search for Office in Boston, Suffolk. Initial search yielded 5 raw entries. After deduplication & enhancement: 5 unique properties. Filtered to 5 properties from the last ~3 years. Selected top 2 comparables based on relevance. Data sources consulted include: MassGIS, MunicipalAssessor, SERP."⟩

/-- An input whose required keys are present but whose city is empty. -/
def emptyCityInput : InputData :=
  { subjectPropertyType := some "Retail", subjectCity := some "",
    subjectCounty := some "Suffolk" }

/-- Recency-filter fixtures: a record dated exactly at the cutoff year, one
dated just below it, one with an unparsable date, and one with no date. -/
def recBoundary : Comp :=
  { address := some "7 Pine St", saleDate := some "2022-06-15",
    confidenceScore := some (ratLit 9 10) }

def recTooOld : Comp :=
  { address := some "8 Pine St", saleDate := some "2021-12-31",
    confidenceScore := some (ratLit 9 10) }

def recBadDate : Comp :=
  { address := some "9 Pine St", saleDate := some "junk",
    confidenceScore := some (ratLit 9 10) }

def recNoDate : Comp :=
  { address := some "10 Pine St", confidenceScore := some (ratLit 9 10) }

/-- Merge-frame fixtures: a seed with populated salePrice and a later group
member carrying a conflicting salePrice and a new yearBuilt. -/
def frameSeed : Comp :=
  { address := some "5 Ash St", salePrice := some 100,
    source := some "MassGIS", confidenceScore := some (ratLit 1 2) }

def frameOther : Comp :=
  { address := some "5 Ash Street", salePrice := some 999, yearBuilt := some 1950,
    source := some "SERP" }

/-- The fixed summary text of a run that found no raw records. -/
def emptyRunSummary (inp : InputData) : String :=
  String.intercalate " "
    ["Comparable sales search for " ++ inp.subjectPropertyType.getD "N/A" ++
       " in " ++ inp.subjectCity.getD "N/A" ++ ", " ++ inp.subjectCounty.getD "N/A" ++ ".",
     "Initial search yielded 0 raw entries.",
     "After deduplication & enhancement: 0 unique properties.",
     "Filtered to 0 properties from the last ~3 years.",
     "No suitable comparable sales found matching all criteria."]

/-- The first value among a list of optional values, if any. -/
def firstSome {α : Type} (l : List (Option α)) : Option α :=
  (l.filterMap id).head?

/-- First-non-null-wins resolution of one field across a merge group: the
seed value when non-null, else the first non-null value among the rest. -/
def fillResolve {α : Type} (b : Option α) (l : List (Option α)) : Option α :=
  match b with
  | some v => some v
  | none => firstSome l

/-! ## Theorems -/

/-! ### The kernel-computable arithmetic agrees with the library operations -/

theorem pyAdd_eq (a b : ℚ) : pyAdd a b = a + b := by
  have ha : ((a.den : ℚ)) ≠ 0 := by exact_mod_cast a.den_nz
  have hb : ((b.den : ℚ)) ≠ 0 := by exact_mod_cast b.den_nz
  rw [pyAdd, Rat.divInt_eq_div]
  conv_rhs => rw [← Rat.num_div_den a, ← Rat.num_div_den b, div_add_div _ _ ha hb]
  push_cast
  ring_nf

theorem pySub_eq (a b : ℚ) : pySub a b = a - b := by
  have ha : ((a.den : ℚ)) ≠ 0 := by exact_mod_cast a.den_nz
  have hb : ((b.den : ℚ)) ≠ 0 := by exact_mod_cast b.den_nz
  rw [pySub, Rat.divInt_eq_div]
  conv_rhs => rw [← Rat.num_div_den a, ← Rat.num_div_den b, div_sub_div _ _ ha hb]
  push_cast
  ring_nf

theorem pyMul_eq (a b : ℚ) : pyMul a b = a * b := by
  rw [pyMul, Rat.divInt_eq_div]
  conv_rhs => rw [← Rat.num_div_den a, ← Rat.num_div_den b, div_mul_div_comm]
  push_cast
  ring_nf

theorem pyDiv_eq (a b : ℚ) : pyDiv a b = a / b := by
  by_cases hb0 : b = 0
  · subst hb0
    simp [pyDiv, Rat.divInt_eq_div]
  · have ha : ((a.den : ℚ)) ≠ 0 := by exact_mod_cast a.den_nz
    have hb : ((b.den : ℚ)) ≠ 0 := by exact_mod_cast b.den_nz
    have hbn : ((b.num : ℚ)) ≠ 0 := by exact_mod_cast Rat.num_ne_zero.mpr hb0
    rw [pyDiv, Rat.divInt_eq_div]
    conv_rhs => rw [← Rat.num_div_den a, ← Rat.num_div_den b]
    rw [div_div_div_comm]
    push_cast
    rw [div_div_eq_mul_div, div_mul_eq_mul_div, mul_comm (a.den : ℚ) (b.num : ℚ)]
    rw [div_div]

theorem pyAbs_eq (q : ℚ) : pyAbs q = |q| := by
  by_cases h : q < 0
  · rw [pyAbs, if_pos h, abs_of_neg h]
  · rw [pyAbs, if_neg h, abs_of_nonneg (le_of_not_lt h)]

/-! ### C7: the address normalizer and its separator set -/

theorem sep_char_eq (c : Char) : pySeparatorChar c = specAmendedSeparator c := by
  have hl : ((List.range 13).map fun n => n + 35) = [35, 36, 37, 38, 39, 40, 41, 42, 43, 44, 45, 46, 47] := by decide
  rw [pySeparatorChar, specAmendedSeparator, hl, Bool.eq_iff_iff]
  show _ ↔ List.elem c.toNat _ = true
  rw [List.elem_iff]
  simp only [Bool.and_eq_true, decide_eq_true_eq, List.mem_cons, List.not_mem_nil, or_false]
  omega

/-- C7 counterexample: the claim says the normalizer replaces exactly the five
characters dot, comma, number sign, hyphen, slash; but on the address string
with a dollar sign the source normalizer also replaces the dollar sign
(the regex class contains the ASCII range 35..47), so the two differ. -/
theorem claimC7_counterexample :
    (normalizeAddressForDedup (some "a$b") = "ab" ∧
      specNormalizeFiveChars (some "a$b") = "a$b") ∧
    normalizeAddressForDedup (some "a$b") ≠ specNormalizeFiveChars (some "a$b") := by
  decide

/-- C7 (amended): the normalizer returns the empty string for absent or empty
input, and otherwise lowercases, replaces exactly the thirteen characters
with ASCII codes 35 through 47 with spaces, removes the street-suffix
vocabulary as whole words, and deletes all whitespace. -/
theorem claimC7_amended (a : Option String) :
    normalizeAddressForDedup a = specNormalizeAmended a := by
  have hf : (fun c => if pySeparatorChar c then ' ' else c) =
      (fun c => if specAmendedSeparator c then ' ' else c) := by
    funext c
    rw [sep_char_eq]
  cases a with
  | none => rfl
  | some s =>
    by_cases h : s = ""
    · subst h; rfl
    · simp only [normalizeAddressForDedup, specNormalizeAmended, if_neg h]
      rw [hf]

/-! ### C1: the relevance ranker raises NameError on any parseable sale date -/

/-- C1 (code defect): on a record whose saleDate parses (here "2024-06-01"),
`relevance_score` reads the unbound local `years_back` and raises `NameError`,
which is not caught by its `except (ValueError, TypeError)` clause, so
`_sort_by_relevance` — and the whole gather — raises instead of returning the
claimed `0.4*confidence + 0.3*recency` ranking. -/
theorem claimC1_ranker_raises :
    relevanceScore basicInput nameErrComp = Except.error yearsBackNameError ∧
    sortByRelevance [nameErrComp] basicInput = Except.error yearsBackNameError ∧
    gatherComparableSales nameErrAdapters basicInput 2025 =
      Except.error yearsBackNameError := by
  decide

/-! ### C2: the outermost boundary catches, but the process exits 0 -/

/-- Helper: a present city/county key whose value is a nonempty string. -/
theorem isSome_of_getD_ne (o : Option String) (h : o.getD "" ≠ "") :
    o.isSome = true := by
  cases o with
  | none => exact absurd rfl h
  | some s => rfl

/-- C2 (amended): when the three required keys are present and
`gather_comparable_sales` raises, `main` catches the exception at the
outermost boundary and writes the error-shaped output with the exception
message embedded in `searchSummary` and `error = true` — but the process
exits with code 0, not a non-zero code (the critical-error branch never calls
`sys.exit`). -/
theorem claimC2_amended (A : AdapterResults) (inp : InputData) (cy : ℤ) (msg : String)
    (hkeys : (inp.subjectCity.isSome && inp.subjectCounty.isSome &&
        inp.subjectPropertyType.isSome) = true)
    (hraise : gatherComparableSales A inp cy = Except.error msg) :
    processMain A inp cy =
      (⟨[], "Critical error during comparable sales gathering: " ++ msg, true⟩, 0) := by
  rw [processMain, if_pos hkeys, hraise]

/-- C2 counterexample: a concrete run in which the gather raises (through the
`years_back` defect): the output document is the well-formed error shape, but
the exit code is 0, refuting the claimed non-zero exit. -/
theorem claimC2_counterexample :
    (processMain nameErrAdapters basicInput 2025).1.error = true ∧
    (processMain nameErrAdapters basicInput 2025).1.comparableSales = [] ∧
    (processMain nameErrAdapters basicInput 2025).2 = 0 := by
  decide

theorem claimC2_amended_witness :
    processMain nameErrAdapters basicInput 2025 =
      (⟨[], "Critical error during comparable sales gathering: " ++ yearsBackNameError,
        true⟩, 0) :=
  claimC2_amended nameErrAdapters basicInput 2025 yearsBackNameError (by decide) (by decide)

/-! ### C10: empty city or county passes key validation and exits 0 -/

/-- C10: when the three required keys are present but the city or the county
value is the empty string, validation passes, the gather returns the
"Error: City and County are required." result without consulting any adapter
(the result is the same for every adapter outcome `A`), and the process
writes it with `error = false` and exits 0. -/
theorem claimC10_empty_city (A : AdapterResults) (inp : InputData) (cy : ℤ)
    (hpt : inp.subjectPropertyType.isSome = true)
    (hc : inp.subjectCity.isSome = true)
    (hk : inp.subjectCounty.isSome = true)
    (hempty : inp.subjectCity.getD "" = "" ∨ inp.subjectCounty.getD "" = "") :
    gatherComparableSales A inp cy =
      Except.ok ⟨[], "Error: City and County are required."⟩ ∧
    processMain A inp cy =
      (⟨[], "Error: City and County are required.", false⟩, 0) := by
  have hg : gatherComparableSales A inp cy =
      Except.ok ⟨[], "Error: City and County are required."⟩ := by
    simp only [gatherComparableSales]
    rw [if_pos hempty]
  refine ⟨hg, ?_⟩
  rw [processMain, if_pos (by simp [hpt, hc, hk]), hg]

theorem claimC10_witness :
    gatherComparableSales nameErrAdapters emptyCityInput 2025 =
      Except.ok ⟨[], "Error: City and County are required."⟩ ∧
    processMain nameErrAdapters emptyCityInput 2025 =
      (⟨[], "Error: City and County are required.", false⟩, 0) :=
  claimC10_empty_city nameErrAdapters emptyCityInput 2025 (by decide) (by decide)
    (by decide) (by decide)

/-! ### C4: per-adapter failure isolation -/

/-- Helper: the shape of a successful gather on the validated path. -/
theorem gather_eval (A : AdapterResults) (inp : InputData) (cy : ℤ)
    (hc : inp.subjectCity.getD "" ≠ "") (hk : inp.subjectCounty.getD "" ≠ "")
    (srt : List Comp)
    (hs : sortByRelevance (qualifiedComps A inp cy) inp = Except.ok srt) :
    gatherComparableSales A inp cy =
      Except.ok ⟨srt.take (inp.numberOfComps.getD 5),
        generateSearchSummary (srt.take (inp.numberOfComps.getD 5)) inp
          (rawComps A) (uniqueComps A) (qualifiedComps A inp cy)⟩ := by
  simp only [gatherComparableSales]
  rw [if_neg (by push_neg; exact ⟨hc, hk⟩), hs]

/-- Helper: a gather over adapters that contributed no records at all. -/
theorem gather_raw_empty (A : AdapterResults) (inp : InputData) (cy : ℤ)
    (hA : rawComps A = [])
    (hc : inp.subjectCity.getD "" ≠ "") (hk : inp.subjectCounty.getD "" ≠ "") :
    gatherComparableSales A inp cy = Except.ok ⟨[], emptyRunSummary inp⟩ := by
  have hu : uniqueComps A = [] := by rw [uniqueComps, hA]; rfl
  have hq : qualifiedComps A inp cy = [] := by
    rw [qualifiedComps, recentComps, hu]
    split <;> rfl
  have hs : sortByRelevance (qualifiedComps A inp cy) inp = Except.ok [] := by
    rw [hq]
    rfl
  rw [gather_eval A inp cy hc hk [] hs, hq, hA, hu]
  simp only [List.take_nil]
  rfl

/-- Helper: a substring of the right part of a concatenation is a substring
of the concatenation. -/
theorem listContainsSub_append (l₁ l₂ pat : List Char)
    (h : listContainsSub l₂ pat = true) : listContainsSub (l₁ ++ l₂) pat = true := by
  induction l₁ with
  | nil => simpa using h
  | cons c t ih =>
    show (List.isPrefixOf pat (c :: (t ++ l₂)) || listContainsSub (t ++ l₂) pat) = true
    rw [ih]
    exact Bool.or_true _

theorem containsSubstr_append_right (a b pat : String)
    (h : containsSubstr b pat = true) : containsSubstr (a ++ b) pat = true := by
  simp only [containsSubstr] at h ⊢
  have hdata : (a ++ b).toList = a.toList ++ b.toList := by
    cases a
    cases b
    rfl
  rw [hdata]
  exact listContainsSub_append _ _ _ h

/-- C4: each adapter call is independently wrapped — an adapter that raises
contributes exactly the same as one returning zero records, for each of the
four slots; and when all four adapters raise, the pipeline still completes
with an empty `comparableSales`, `error = false`, exit code 0, and a summary
stating that zero raw entries were found. -/
theorem claimC4_adapter_isolation (inp : InputData) (cy : ℤ)
    (hpt : inp.subjectPropertyType.isSome = true)
    (hc : inp.subjectCity.getD "" ≠ "") (hk : inp.subjectCounty.getD "" ≠ "") :
    (∀ e r2 r3 r4, gatherComparableSales ⟨Except.error e, r2, r3, r4⟩ inp cy =
        gatherComparableSales ⟨Except.ok [], r2, r3, r4⟩ inp cy) ∧
    (∀ r1 e r3 r4, gatherComparableSales ⟨r1, Except.error e, r3, r4⟩ inp cy =
        gatherComparableSales ⟨r1, Except.ok [], r3, r4⟩ inp cy) ∧
    (∀ r1 r2 e r4, gatherComparableSales ⟨r1, r2, Except.error e, r4⟩ inp cy =
        gatherComparableSales ⟨r1, r2, Except.ok [], r4⟩ inp cy) ∧
    (∀ r1 r2 r3 e, gatherComparableSales ⟨r1, r2, r3, Except.error e⟩ inp cy =
        gatherComparableSales ⟨r1, r2, r3, Except.ok []⟩ inp cy) ∧
    (∀ e1 e2 e3 e4 : String,
      processMain ⟨Except.error e1, Except.error e2, Except.error e3, Except.error e4⟩
          inp cy = (⟨[], emptyRunSummary inp, false⟩, 0) ∧
      containsSubstr (emptyRunSummary inp) "Initial search yielded 0 raw entries." = true) := by
  refine ⟨fun _ _ _ _ => rfl, fun _ _ _ _ => rfl, fun _ _ _ _ => rfl, fun _ _ _ _ => rfl,
    fun e1 e2 e3 e4 => ⟨?_, ?_⟩⟩
  · rw [processMain,
      if_pos (by simp [hpt, isSome_of_getD_ne _ hc, isSome_of_getD_ne _ hk]),
      gather_raw_empty ⟨Except.error e1, Except.error e2, Except.error e3, Except.error e4⟩
        inp cy (by rfl) hc hk]
  · rw [emptyRunSummary]
    simp only [String.intercalate, String.intercalate.go, String.append_assoc]
    repeat first
    | decide
    | apply containsSubstr_append_right

/-! ### C5: the recency filter -/

/-- C5: for every record, the recency filter keeps a record unchanged when
its saleDate parses with year at or above `currentYear - yearsBack`; drops it
when the parsed year is strictly below the cutoff; keeps a record with a
present (nonempty) but unparsable saleDate with confidence capped at 0.4
(the minimum of the old score, defaulted to 0.5, and 0.4); and keeps a
record with an absent saleDate with confidence capped at 0.3 the same way.
The list filter is exactly the per-record step mapped over the list. -/
theorem claimC5_recency_filter (cy yb : ℤ) (c : Comp) :
    (∀ s y m d, c.saleDate = some s → parseSaleDate s = some (y, m, d) →
      (cy - yb ≤ (y : ℤ) → filterRecentStep cy yb c = some c) ∧
      ((y : ℤ) < cy - yb → filterRecentStep cy yb c = none)) ∧
    (∀ s, c.saleDate = some s → s ≠ "" → parseSaleDate s = none →
      filterRecentStep cy yb c = some { c with
        confidenceScore := some (min (c.confidenceScore.getD (ratLit 1 2)) (ratLit 2 5)) }) ∧
    (c.saleDate = none →
      filterRecentStep cy yb c = some { c with
        confidenceScore := some (min (c.confidenceScore.getD (ratLit 1 2)) (ratLit 3 10)) }) ∧
    (∀ comps, filterRecentSales comps cy yb = comps.filterMap (filterRecentStep cy yb)) := by
  refine ⟨?_, ?_, ?_, fun _ => rfl⟩
  · intro s y m d hsd hp
    have hs0 : s ≠ "" := by
      intro he
      rw [he, show parseSaleDate "" = none from rfl] at hp
      exact Option.noConfusion hp
    constructor
    · intro hy
      simp only [filterRecentStep, hsd, hp, if_neg hs0, if_pos hy]
    · intro hy
      simp only [filterRecentStep, hsd, hp, if_neg hs0, if_neg (not_le.mpr hy)]
  · intro s hsd hs0 hp
    simp only [filterRecentStep, hsd, if_neg hs0, hp]
  · intro hsd
    simp only [filterRecentStep, hsd]

theorem claimC5_witness :
    filterRecentStep 2025 3 recBoundary = some recBoundary ∧
    filterRecentStep 2025 3 recTooOld = none ∧
    filterRecentStep 2025 3 recBadDate =
      some { recBadDate with confidenceScore := some (ratLit 2 5) } ∧
    filterRecentStep 2025 3 recNoDate =
      some { recNoDate with confidenceScore := some (ratLit 3 10) } := by
  refine ⟨?_, ?_, ?_, ?_⟩
  · exact ((claimC5_recency_filter 2025 3 recBoundary).1 "2022-06-15" 2022 6 15 rfl
      (by decide)).1 (by decide)
  · exact ((claimC5_recency_filter 2025 3 recTooOld).1 "2021-12-31" 2021 12 31 rfl
      (by decide)).2 (by decide)
  · exact ((claimC5_recency_filter 2025 3 recBadDate).2.1 "junk" rfl (by decide)
      (by decide)).trans (by decide)
  · exact ((claimC5_recency_filter 2025 3 recNoDate).2.2.1 rfl).trans (by decide)

/-! ### C6: Scenario A — two sources, disjoint fields, confidence boost -/

/-- Helper: the source set of the Scenario A group is the two distinct
primary labels, in insertion order. -/
theorem scnA_groupSources (p : ℚ) (y : ℤ) (s1 s2 : String)
    (hs : primaryLabel s1 ≠ primaryLabel s2) :
    groupSources (scnARec1 p s1) [scnARec2 y s2] =
      [primaryLabel s1, primaryLabel s2] := by
  show insertUnique [primaryLabel s1] (primaryLabel s2) = _
  have hne : ¬([primaryLabel s1].contains (primaryLabel s2) = true) := fun hcon =>
    hs (List.mem_singleton.mp (List.elem_iff.mp hcon)).symm
  rw [insertUnique, if_neg hne]
  rfl

/-- C6: merging the two Scenario A records ("123 Main St" and
"123 Main Street", equal confidence 0.6, one carrying salePrice and the other
yearBuilt, distinct primary sources) yields exactly one record with both
fields populated, the combined "Multiple Sources - ..." label over the two
sorted labels, and confidence 0.7. -/
theorem claimC6_scenarioA (p : ℚ) (y : ℤ) (s1 s2 : String)
    (hs : primaryLabel s1 ≠ primaryLabel s2) :
    deduplicateAndEnhance [scnARec1 p s1, scnARec2 y s2] =
      [{ address := some "123 Main St", salePrice := some p, yearBuilt := some y,
         source := some (multiSourceLabel [primaryLabel s1, primaryLabel s2]),
         confidenceScore := some (ratLit 7 10) }] := by
  show [mergeGroup (scnARec1 p s1) [scnARec2 y s2]] = _
  have hmerge : mergeGroup (scnARec1 p s1) [scnARec2 y s2] =
      { address := some "123 Main St", salePrice := some p, yearBuilt := some y,
        source := some (multiSourceLabel [primaryLabel s1, primaryLabel s2]),
        confidenceScore := some (ratLit 7 10) } := by
    simp only [mergeGroup]
    rw [scnA_groupSources p y s1 s2 hs]
    rw [if_pos (show 1 < List.length [primaryLabel s1, primaryLabel s2] from by
      rw [show List.length [primaryLabel s1, primaryLabel s2] = 2 from rfl]
      norm_num)]
    rw [show (List.foldl fillFromOther (scnARec1 p s1) [scnARec2 y s2]).confidenceScore =
      some (ratLit 3 5) from rfl]
    rw [show List.length [primaryLabel s1, primaryLabel s2] = 2 from rfl]
    rw [show min (pyAdd ((some (ratLit 3 5)).getD (ratLit 1 2))
        (pyMul (ratLit 1 10) (pySub ((2 : ℕ) : ℚ) 1))) (ratLit 19 20) =
      ratLit 7 10 from by decide]
    rfl
  rw [hmerge]

theorem claimC6_witness :
    deduplicateAndEnhance [scnARec1 500000 "MunicipalAssessor", scnARec2 1990 "SERP"] =
      [{ address := some "123 Main St", salePrice := some 500000, yearBuilt := some 1990,
         source := some (multiSourceLabel
           [primaryLabel "MunicipalAssessor", primaryLabel "SERP"]),
         confidenceScore := some (ratLit 7 10) }] ∧
    multiSourceLabel [primaryLabel "MunicipalAssessor", primaryLabel "SERP"] =
      "Multiple Sources - MunicipalAssessor, SERP" :=
  ⟨claimC6_scenarioA 500000 1990 "MunicipalAssessor" "SERP" (by decide), by decide⟩

/-! ### C3: confidence bounds of the dedup/merge output -/

/-- C3 counterexample: an input record with confidenceScore 1.0 (within the
claimed [0, 1] input range) whose merge group has a single source passes
through `_deduplicate_and_enhance` with confidence 1.0 — above the claimed
0.95 cap, which is applied only on the multi-source boost branch. -/
theorem claimC3_counterexample :
    (fullConfComp.confidenceScore = some 1 ∧ (0 : ℚ) ≤ 1 ∧ (1 : ℚ) ≤ 1) ∧
    (deduplicateAndEnhance [fullConfComp]).map (fun c => c.confidenceScore) = [some 1] ∧
    ratLit 19 20 < (1 : ℚ) := by
  decide

/-- Helper: the fill fold never changes the confidence score. -/
theorem foldl_fill_conf (rest : List Comp) (seed : Comp) :
    (rest.foldl fillFromOther seed).confidenceScore = seed.confidenceScore := by
  induction rest generalizing seed with
  | nil => rfl
  | cons o t ih => exact (ih (fillFromOther seed o)).trans rfl

/-- Helper: the merged confidence is the seed's, boosted and capped exactly
when more than one distinct primary source contributed. -/
theorem mergeGroup_conf (seed : Comp) (rest : List Comp) :
    (1 < (groupSources seed rest).length →
      (mergeGroup seed rest).confidenceScore =
        some (min (pyAdd (seed.confidenceScore.getD (ratLit 1 2))
          (pyMul (ratLit 1 10) (pySub (((groupSources seed rest).length : ℕ) : ℚ) 1)))
          (ratLit 19 20))) ∧
    (¬ 1 < (groupSources seed rest).length →
      (mergeGroup seed rest).confidenceScore = seed.confidenceScore) := by
  have hf : (rest.foldl fillFromOther seed).confidenceScore = seed.confidenceScore :=
    foldl_fill_conf rest seed
  constructor
  · intro h
    simp only [mergeGroup]
    rw [if_pos h]
    show some (min (pyAdd ((rest.foldl fillFromOther seed).confidenceScore.getD
      (ratLit 1 2)) _) _) = _
    rw [hf]
  · intro h
    simp only [mergeGroup]
    rw [if_neg h]
    exact hf

/-- Helper: the boosted-and-capped confidence is within [0, 0.95] whenever
the seed confidence is within [0, 1] and at least two sources contributed. -/
theorem boost_bound (c0 : ℚ) (h0 : 0 ≤ c0) (n : ℕ) (hn : 1 < n) :
    0 ≤ min (pyAdd c0 (pyMul (ratLit 1 10) (pySub ((n : ℚ)) 1))) (ratLit 19 20) ∧
    min (pyAdd c0 (pyMul (ratLit 1 10) (pySub ((n : ℚ)) 1))) (ratLit 19 20) ≤
      ratLit 19 20 := by
  refine ⟨?_, min_le_right _ _⟩
  rw [pyAdd_eq, pyMul_eq, pySub_eq]
  apply le_min
  · have hr : (0 : ℚ) ≤ ratLit 1 10 := by decide
    have hm : (1 : ℚ) ≤ (n : ℚ) := by exact_mod_cast Nat.one_le_of_lt hn
    nlinarith
  · decide

/-- Helper: every member of every merge group comes from the input list. -/
theorem addToGroups_members (P : Comp → Prop) (gs : List (String × List Comp))
    (k : String) (c : Comp)
    (hgs : ∀ g ∈ gs, ∀ x ∈ g.2, P x) (hc : P c) :
    ∀ g ∈ addToGroups gs k c, ∀ x ∈ g.2, P x := by
  induction gs with
  | nil =>
    intro g hg x hx
    rw [addToGroups] at hg
    rcases List.mem_singleton.mp hg with rfl
    rcases List.mem_singleton.mp hx with rfl
    exact hc
  | cons p rest ih =>
    intro g hg x hx
    rw [show addToGroups (p :: rest) k c =
      (if p.1 = k then (p.1, p.2 ++ [c]) :: rest
       else p :: addToGroups rest k c) from by rw [addToGroups]] at hg
    split at hg
    · rcases List.mem_cons.mp hg with rfl | htail
      · rcases List.mem_append.mp hx with hx2 | hx2
        · exact hgs p (List.mem_cons_self _ _) x hx2
        · rcases List.mem_singleton.mp hx2 with rfl
          exact hc
      · exact hgs g (List.mem_cons_of_mem _ htail) x hx
    · rcases List.mem_cons.mp hg with rfl | htail
      · exact hgs g (List.mem_cons_self _ _) x hx
      · exact ih (fun g' hg' => hgs g' (List.mem_cons_of_mem _ hg')) g htail x hx

theorem groupByNorm_members (P : Comp → Prop) :
    ∀ (comps : List Comp) (gs : List (String × List Comp)),
      (∀ c ∈ comps, P c) → (∀ g ∈ gs, ∀ x ∈ g.2, P x) →
      ∀ g ∈ comps.foldl
        (fun gs c =>
          let k := normalizeAddressForDedup c.address
          if k = "" then gs else addToGroups gs k c) gs,
        ∀ x ∈ g.2, P x := by
  intro comps
  induction comps with
  | nil => exact fun gs _ hgs => hgs
  | cons c t ih =>
    intro gs hcomps hgs
    refine ih _ (fun x hx => hcomps x (List.mem_cons_of_mem _ hx)) ?_
    show ∀ g ∈ (if normalizeAddressForDedup c.address = "" then gs
      else addToGroups gs (normalizeAddressForDedup c.address) c), ∀ x ∈ g.2, P x
    split
    · exact hgs
    · exact addToGroups_members P gs _ c hgs (hcomps c (List.mem_cons_self _ _))

/-- Helper: every output record of the dedup is the merge of a sorted group
whose members all come from the input. -/
theorem dedup_member_shape (P : Comp → Prop) (comps : List Comp)
    (h : ∀ x ∈ comps, P x) (c : Comp) (hc : c ∈ deduplicateAndEnhance comps) :
    ∃ seed rest, c = mergeGroup seed rest ∧ P seed ∧ ∀ x ∈ rest, P x := by
  obtain ⟨g, hg, hmatch⟩ := List.mem_filterMap.mp hc
  have hmem : ∀ x ∈ g.2, P x :=
    groupByNorm_members P comps [] h (by intro g' hg' x hx; cases hg') g hg
  rcases hsort : sortGroupDesc g.2 with _ | ⟨seed, rest⟩
  · rw [hsort] at hmatch
    exact Option.noConfusion hmatch
  · rw [hsort] at hmatch
    have hsorted_mem : ∀ x ∈ seed :: rest, P x := by
      intro x hx
      apply hmem
      rw [← hsort] at hx
      exact (List.perm_insertionSort groupGE g.2).mem_iff.mp hx
    refine ⟨seed, rest, (Option.some.inj hmatch).symm, hsorted_mem seed (List.mem_cons_self _ _),
      fun x hx => hsorted_mem x (List.mem_cons_of_mem _ hx)⟩

/-- C3 (amended): if every input confidence lies in [0, 1], then every output
record of `_deduplicate_and_enhance` has its confidence in [0, 1]; the 0.95
cap is guaranteed exactly for records whose merge group drew on more than one
distinct primary source — a single-source group keeps the seed's original
confidence, which may be as high as 1. -/
theorem claimC3_amended (comps : List Comp)
    (h : ∀ x ∈ comps, ∀ q, x.confidenceScore = some q → 0 ≤ q ∧ q ≤ 1) :
    (∀ c ∈ deduplicateAndEnhance comps, ∀ q, c.confidenceScore = some q →
      0 ≤ q ∧ q ≤ 1) ∧
    (∀ seed rest, (∀ q, seed.confidenceScore = some q → 0 ≤ q ∧ q ≤ 1) →
      1 < (groupSources seed rest).length →
      ∃ q, (mergeGroup seed rest).confidenceScore = some q ∧
        0 ≤ q ∧ q ≤ ratLit 19 20) := by
  have hkey : ∀ seed rest, (∀ q, seed.confidenceScore = some q → 0 ≤ q ∧ q ≤ 1) →
      1 < (groupSources seed rest).length →
      ∃ q, (mergeGroup seed rest).confidenceScore = some q ∧
        0 ≤ q ∧ q ≤ ratLit 19 20 := by
    intro seed rest hseed hn
    have hconf := (mergeGroup_conf seed rest).1 hn
    refine ⟨_, hconf, ?_⟩
    have h0 : 0 ≤ seed.confidenceScore.getD (ratLit 1 2) := by
      rcases hd : seed.confidenceScore with _ | q0
      · decide
      · exact (hseed q0 hd).1
    exact boost_bound _ h0 _ hn
  refine ⟨?_, hkey⟩
  intro c hc q hq
  obtain ⟨seed, rest, rfl, hseed, _⟩ :=
    dedup_member_shape (fun x => ∀ q, x.confidenceScore = some q → 0 ≤ q ∧ q ≤ 1)
      comps h c hc
  by_cases hn : 1 < (groupSources seed rest).length
  · obtain ⟨q', hq', h0, h95⟩ := hkey seed rest hseed hn
    rw [hq'] at hq
    rcases Option.some.inj hq with rfl
    exact ⟨h0, h95.trans (by decide)⟩
  · have hconf := (mergeGroup_conf seed rest).2 hn
    rw [hconf] at hq
    exact hseed q hq

theorem claimC3_amended_witness :
    ((deduplicateAndEnhance [scnARec1 500000 "MunicipalAssessor", scnARec2 1990 "SERP"]).map
      (fun c => c.confidenceScore) = [some (ratLit 7 10)]) ∧
    0 ≤ ratLit 7 10 ∧ ratLit 7 10 ≤ 1 := by
  refine ⟨by decide, ?_⟩
  have happ := (claimC3_amended
    [scnARec1 500000 "MunicipalAssessor", scnARec2 1990 "SERP"] (by decide)).1
  exact happ
    { address := some "123 Main St", salePrice := some 500000, yearBuilt := some 1990,
      source := some "Multiple Sources - MunicipalAssessor, SERP",
      confidenceScore := some (ratLit 7 10) }
    (by decide) (ratLit 7 10) (by decide)

/-! ### C9: first-non-null-wins frame property of the merge -/

/-- Helper: projecting a compatible field through the fill fold. -/
theorem foldl_fill_proj {α : Type} (proj : Comp → Option α)
    (hcompat : ∀ b o, proj (fillFromOther b o) = fillField (proj b) (proj o)) :
    ∀ (rest : List Comp) (seed : Comp),
      proj (rest.foldl fillFromOther seed) =
        fillResolve (proj seed) (rest.map proj) := by
  intro rest
  induction rest with
  | nil =>
    intro seed
    cases h : proj seed <;> simp [h, fillResolve, firstSome]
  | cons o t ih =>
    intro seed
    show proj (t.foldl fillFromOther (fillFromOther seed o)) = _
    rw [ih (fillFromOther seed o), hcompat]
    cases hs : proj seed with
    | some v => rfl
    | none =>
      show fillResolve (proj o) (t.map proj) = _
      cases ho : proj o with
      | some w => simp [fillResolve, firstSome, ho]
      | none => simp [fillResolve, firstSome, ho]

/-- Helper: the source/confidence post-processing of a merge group does not
touch the other fields. -/
theorem mergeGroup_frame (seed : Comp) (rest : List Comp) :
    (mergeGroup seed rest).address = (rest.foldl fillFromOther seed).address ∧
    (mergeGroup seed rest).saleDate = (rest.foldl fillFromOther seed).saleDate ∧
    (mergeGroup seed rest).salePrice = (rest.foldl fillFromOther seed).salePrice ∧
    (mergeGroup seed rest).buildingSizeSqFt = (rest.foldl fillFromOther seed).buildingSizeSqFt ∧
    (mergeGroup seed rest).lotSizeSqFt = (rest.foldl fillFromOther seed).lotSizeSqFt ∧
    (mergeGroup seed rest).yearBuilt = (rest.foldl fillFromOther seed).yearBuilt ∧
    (mergeGroup seed rest).propertyType = (rest.foldl fillFromOther seed).propertyType ∧
    (mergeGroup seed rest).useCode = (rest.foldl fillFromOther seed).useCode ∧
    (mergeGroup seed rest).parcelId = (rest.foldl fillFromOther seed).parcelId ∧
    (mergeGroup seed rest).briefDescription = (rest.foldl fillFromOther seed).briefDescription := by
  rw [mergeGroup]
  split <;> exact ⟨rfl, rfl, rfl, rfl, rfl, rfl, rfl, rfl, rfl, rfl⟩

/-- C9: within a merge group ordered as `seed :: rest`, for every field other
than `source` and `confidenceScore`, the merged record keeps the seed's value
whenever it is non-null, and otherwise takes the first non-null value among
the later group members, in order. -/
theorem claimC9_first_non_null_wins (seed : Comp) (rest : List Comp) :
    ((mergeGroup seed rest).address =
      fillResolve seed.address (rest.map fun c => c.address)) ∧
    ((mergeGroup seed rest).saleDate =
      fillResolve seed.saleDate (rest.map fun c => c.saleDate)) ∧
    ((mergeGroup seed rest).salePrice =
      fillResolve seed.salePrice (rest.map fun c => c.salePrice)) ∧
    ((mergeGroup seed rest).buildingSizeSqFt =
      fillResolve seed.buildingSizeSqFt (rest.map fun c => c.buildingSizeSqFt)) ∧
    ((mergeGroup seed rest).lotSizeSqFt =
      fillResolve seed.lotSizeSqFt (rest.map fun c => c.lotSizeSqFt)) ∧
    ((mergeGroup seed rest).yearBuilt =
      fillResolve seed.yearBuilt (rest.map fun c => c.yearBuilt)) ∧
    ((mergeGroup seed rest).propertyType =
      fillResolve seed.propertyType (rest.map fun c => c.propertyType)) ∧
    ((mergeGroup seed rest).useCode =
      fillResolve seed.useCode (rest.map fun c => c.useCode)) ∧
    ((mergeGroup seed rest).parcelId =
      fillResolve seed.parcelId (rest.map fun c => c.parcelId)) ∧
    ((mergeGroup seed rest).briefDescription =
      fillResolve seed.briefDescription (rest.map fun c => c.briefDescription)) := by
  obtain ⟨h1, h2, h3, h4, h5, h6, h7, h8, h9, h10⟩ := mergeGroup_frame seed rest
  exact ⟨h1.trans (foldl_fill_proj (fun c => c.address) (fun _ _ => rfl) rest seed),
    h2.trans (foldl_fill_proj (fun c => c.saleDate) (fun _ _ => rfl) rest seed),
    h3.trans (foldl_fill_proj (fun c => c.salePrice) (fun _ _ => rfl) rest seed),
    h4.trans (foldl_fill_proj (fun c => c.buildingSizeSqFt) (fun _ _ => rfl) rest seed),
    h5.trans (foldl_fill_proj (fun c => c.lotSizeSqFt) (fun _ _ => rfl) rest seed),
    h6.trans (foldl_fill_proj (fun c => c.yearBuilt) (fun _ _ => rfl) rest seed),
    h7.trans (foldl_fill_proj (fun c => c.propertyType) (fun _ _ => rfl) rest seed),
    h8.trans (foldl_fill_proj (fun c => c.useCode) (fun _ _ => rfl) rest seed),
    h9.trans (foldl_fill_proj (fun c => c.parcelId) (fun _ _ => rfl) rest seed),
    h10.trans (foldl_fill_proj (fun c => c.briefDescription) (fun _ _ => rfl) rest seed)⟩

/-! ### C8: truncation to the requested count of the highest-scored records -/

/-- Helper: a successful key computation pairs every record with its score,
in order. -/
theorem mapKeyedScores_ok (inp : InputData) :
    ∀ (comps : List Comp) (keyed : List (ℚ × Comp)),
      mapKeyedScores inp comps = Except.ok keyed →
      keyed.map Prod.snd = comps ∧ ∀ p ∈ keyed, p.1 = relevanceScoreD inp p.2 := by
  intro comps
  induction comps with
  | nil =>
    intro keyed h
    injection h with h2
    subst h2
    exact ⟨rfl, by intro p hp; cases hp⟩
  | cons c t ih =>
    intro keyed h
    rw [show mapKeyedScores inp (c :: t) =
      (match keyedScore inp c with
       | Except.error e => Except.error e
       | Except.ok p =>
         match mapKeyedScores inp t with
         | Except.error e => Except.error e
         | Except.ok ps => Except.ok (p :: ps)) from rfl] at h
    cases hr : relevanceScore inp c with
    | error e =>
      rw [show keyedScore inp c = Except.error e from by rw [keyedScore, hr]] at h
      exact Except.noConfusion h
    | ok q =>
      rw [show keyedScore inp c = Except.ok (q, c) from by rw [keyedScore, hr]] at h
      cases hm : mapKeyedScores inp t with
      | error e =>
        rw [hm] at h
        exact Except.noConfusion h
      | ok ps =>
        rw [hm] at h
        injection h with h2
        subst h2
        obtain ⟨hmap, hmem⟩ := ih ps hm
        refine ⟨by rw [List.map_cons, hmap], ?_⟩
        intro p hp
        rcases List.mem_cons.mp hp with rfl | hp2
        · show q = relevanceScoreD inp c
          rw [relevanceScoreD, hr]
        · exact hmem p hp2

/-- Helper: a successful relevance sort is a stable descending permutation. -/
theorem sortByRelevance_ok (comps : List Comp) (inp : InputData) (srt : List Comp)
    (h : sortByRelevance comps inp = Except.ok srt) :
    srt.Perm comps ∧
    srt.Pairwise (fun a b => relevanceScoreD inp b ≤ relevanceScoreD inp a) := by
  rw [sortByRelevance] at h
  cases hm : mapKeyedScores inp comps with
  | error e =>
    rw [hm] at h
    exact Except.noConfusion h
  | ok keyed =>
    rw [hm] at h
    injection h with h2
    obtain ⟨hmap, hmem⟩ := mapKeyedScores_ok inp comps keyed hm
    subst h2
    constructor
    · have hp := (List.perm_insertionSort pairGE keyed).map Prod.snd
      rw [hmap] at hp
      exact hp
    · have hsorted : (List.insertionSort pairGE keyed).Pairwise pairGE :=
        List.sorted_insertionSort pairGE keyed
      have hmem' : ∀ p ∈ List.insertionSort pairGE keyed,
          p.1 = relevanceScoreD inp p.2 := fun p hp =>
        hmem p ((List.perm_insertionSort pairGE keyed).mem_iff.mp hp)
      have himp : (List.insertionSort pairGE keyed).Pairwise
          (fun p q => relevanceScoreD inp q.2 ≤ relevanceScoreD inp p.2) := by
        refine List.Pairwise.imp_of_mem ?_ hsorted
        intro a b ha hb hr
        rw [← hmem' a ha, ← hmem' b hb]
        exact hr
      exact List.pairwise_map.mpr himp

/-- C8: on the validated path, a successful gather returns the
`min(requested, available)` highest-scored qualifying records: the output has
length at most the requested count, is sorted descending by relevance score,
and splits the qualifying records into the kept part and a dropped part in
which every kept record scores at least as high as every dropped one. -/
theorem claimC8_truncation (A : AdapterResults) (inp : InputData) (cy : ℤ)
    (out : GatherResult)
    (hc : inp.subjectCity.getD "" ≠ "") (hk : inp.subjectCounty.getD "" ≠ "")
    (hok : gatherComparableSales A inp cy = Except.ok out) :
    out.comparableSales.length =
      min (inp.numberOfComps.getD 5) (qualifiedComps A inp cy).length ∧
    out.comparableSales.length ≤ inp.numberOfComps.getD 5 ∧
    out.comparableSales.Pairwise
      (fun a b => relevanceScoreD inp b ≤ relevanceScoreD inp a) ∧
    ∃ dropped, (out.comparableSales ++ dropped).Perm (qualifiedComps A inp cy) ∧
      ∀ a ∈ out.comparableSales, ∀ b ∈ dropped,
        relevanceScoreD inp b ≤ relevanceScoreD inp a := by
  obtain ⟨srt, hs, hout⟩ : ∃ srt,
      sortByRelevance (qualifiedComps A inp cy) inp = Except.ok srt ∧
      out.comparableSales = srt.take (inp.numberOfComps.getD 5) := by
    revert hok
    simp only [gatherComparableSales]
    rw [if_neg (by push_neg; exact ⟨hc, hk⟩)]
    cases hsr : sortByRelevance (qualifiedComps A inp cy) inp with
    | error e => exact fun hok => Except.noConfusion hok
    | ok srt =>
      intro hok
      refine ⟨srt, rfl, ?_⟩
      rw [← Except.ok.inj hok]
  obtain ⟨hperm, hpair⟩ := sortByRelevance_ok _ inp srt hs
  rw [hout]
  refine ⟨?_, ?_, ?_, ?_⟩
  · rw [List.length_take, hperm.length_eq]
  · rw [List.length_take]
    exact min_le_left _ _
  · exact hpair.sublist (List.take_sublist _ _)
  · refine ⟨srt.drop (inp.numberOfComps.getD 5), ?_, ?_⟩
    · rw [List.take_append_drop]
      exact hperm
    · exact (List.pairwise_append.mp
        (by rw [List.take_append_drop]; exact hpair)).2.2

set_option maxRecDepth 4000 in
theorem claimC8_witness :
    gatherComparableSales scnEAdapters scnEInput 2025 = Except.ok scnEOutput ∧
    (qualifiedComps scnEAdapters scnEInput 2025).length = 5 ∧
    scnEOutput.comparableSales.length = 2 ∧
    scnEOutput.comparableSales.Pairwise
      (fun a b => relevanceScoreD scnEInput b ≤ relevanceScoreD scnEInput a) := by
  refine ⟨by decide, by decide, by decide, ?_⟩
  exact (claimC8_truncation scnEAdapters scnEInput 2025 scnEOutput (by decide) (by decide)
    (by decide)).2.2.1

theorem claimC4_witness :
    processMain allFailAdapters basicInput 2025 =
      (⟨[], emptyRunSummary basicInput, false⟩, 0) ∧
    containsSubstr (emptyRunSummary basicInput) "Initial search yielded 0 raw entries." =
      true :=
  ((claimC4_adapter_isolation basicInput 2025 (by decide) (by decide) (by decide)).2.2.2.2
    "boom1" "boom2" "boom3" "boom4")

end CompScraper
